import Mathlib

/-!
# Verification of the retro-opl core

Shallow embedding of the timed-command interpretation and rate-conversion
core of the retro-opl repository:

* `retro_opl.c` — the OPL2-script interpreter (line format, token parsers,
  virtual clock, control-rate → sample-rate conversion, sample buffer);
* `vgm2opl.c` — the VGM binary event decoder (header resolution, opcode
  walk, VGM-clock → control-rate conversion, loop replay).

Machine integers (`int32_t`, `uint32_t`) are modelled as `ℕ` with the exact
overflow guards the C source performs (`x ≤ INT32_MAX - y` before adding,
`% 2^32` where `uint32_t` addition can wrap).  Input lines are byte lists;
the C line buffer is nul-terminated and lines never contain a nul byte
(readInput only admits tab and 0x20..0x7e), so the end of the list plays
the role of the terminator.  Fallible code returns `Option`/`Except`.

The C source computes `floor(t * tgt / src)` through a `double`
intermediate.  For every value reached in the properties below the product
`t * tgt` is below `2^42` (and `src ≤ 44100`), so the quotient is more than
half an ulp away from every other integer and the `double` floor coincides
with exact natural floor division, which is how the conversion is embedded.
-/

/-- `INT32_MAX` from `<stdint.h>`, used by every overflow guard in the C
source. -/
def INT32_MAX : ℕ := 2147483647

/-- `BUFFER_SAMPLES` from retro_opl.c: capacity of the sample buffer. -/
def BUFFER_SAMPLES : ℕ := 4096

/-- 2^32, the modulus of `uint32_t` arithmetic in vgm2opl.c. -/
def U32 : ℕ := 4294967296

/-- One input line: its bytes, without the terminating nul.  Lines produced
by `readInput` in retro_opl.c contain only tab and 0x20..0x7e, never 0. -/
abbrev Line := List ℕ

deriving instance DecidableEq for Except

/-- The rate conversion shared by retro_opl.c (control rate → sample rate,
`so = (((double) t) * ((double) sample_rate)) / ((double) rate)` followed by
`floor`) and vgm2opl.c (VGM sample clock → control rate,
`f = (((double) samp_offs) * 980.0) / 44100.0` followed by `floor`):
elapsed count `t` at source rate `src` mapped to `floor(t·tgt/src)` units at
target rate `tgt`.  See the header comment for why the `double`
intermediate computes this exactly on the ranges used here. -/
def rateConvert (t tgt src : ℕ) : ℕ := t * tgt / src

/-- The conversion together with the checks retro_opl.c performs on the
floating-point intermediate: `isfinite(so)` and `so >= 0.0` never fail for
a natural-number floor, and `so <= (double) INT32_MAX` is the 32-bit range
check before the cast `soi = (int32_t) so`. -/
def rateConvertChecked (t tgt src : ℕ) : Option ℕ :=
  let so := rateConvert t tgt src
  if so ≤ INT32_MAX then some so else none

/-!
## Token parsers and header parsing (retro_opl.c)
-/

/-- `isBlankStr` from retro_opl.c: true iff the string is empty or contains
only spaces and horizontal tabs. -/
def isBlankStr : Line → Bool
  | [] => true
  | c :: rest => if c = 32 || c = 9 then isBlankStr rest else false

/-- The leading `while ((*pstr == '\t') || (*pstr == ' ')) pstr++;` loop
shared by `parseByte` and `parseInt` in retro_opl.c. -/
def skipWS : Line → Line
  | [] => []
  | c :: rest => if c = 9 || c = 32 then skipWS rest else c :: rest

/-- Value of one base-16 digit, following the three digit ranges tested by
`parseByte` in retro_opl.c ('0'-'9', 'A'-'F', 'a'-'f'). -/
def hexDigit (c : ℕ) : Option ℕ :=
  if 48 ≤ c ∧ c ≤ 57 then some (c - 48)
  else if 65 ≤ c ∧ c ≤ 70 then some (c - 65 + 10)
  else if 97 ≤ c ∧ c ≤ 102 then some (c - 97 + 10)
  else none

/-- `parseByte` from retro_opl.c: skip blanks, read exactly two base-16
digits into `(result << 4) + digit`, and require that the next character is
not a base-16 digit.  `none` is the `raiseErr` path. -/
def parseByte (l : Line) : Option (ℕ × Line) :=
  match skipWS l with
  | c1 :: c2 :: rest =>
    match hexDigit c1, hexDigit c2 with
    | some d1, some d2 =>
      match rest with
      | c3 :: _ => if (hexDigit c3).isSome then none else some (d1 * 16 + d2, rest)
      | [] => some (d1 * 16 + d2, [])
    | _, _ => none
  | _ => none

/-- Digit-accumulation loop of `parseInt` in retro_opl.c, with its two
overflow guards: `result <= INT32_MAX / 10` before the multiply and
`result <= INT32_MAX - d` before the add. -/
def parseIntLoop : Line → ℕ → Option (ℕ × Line)
  | [], acc => some (acc, [])
  | c :: rest, acc =>
    if 48 ≤ c ∧ c ≤ 57 then
      if acc ≤ INT32_MAX / 10 then
        if acc * 10 ≤ INT32_MAX - (c - 48) then
          parseIntLoop rest (acc * 10 + (c - 48))
        else none
      else none
    else some (acc, c :: rest)

/-- `parseInt` from retro_opl.c: skip blanks, require a decimal digit, then
accumulate the digit run (overflow-checked). -/
def parseInt (l : Line) : Option (ℕ × Line) :=
  match skipWS l with
  | [] => none
  | c :: rest => if 48 ≤ c ∧ c ≤ 57 then parseIntLoop (c :: rest) 0 else none

/-- The distinct `raiseErr` diagnostics of `readHeader` in retro_opl.c. -/
inductive HeaderErr
  | noHeader   -- "Failed to read header line!"
  | badTag     -- "Input does not have OPL2 header!"
  | parseErr   -- parseInt failed
  | rangeErr   -- "Control rate must be in range [1, 1024]!"
  | syntaxErr  -- "Invalid header line syntax!"
  deriving DecidableEq

/-- `readHeader` from retro_opl.c, applied to the already-read header line:
`memcmp(l_buf, "OPL2", 4)` over the nul-padded buffer (equivalently,
`l.take 4 = "OPL2"` since lines hold no nul and the tag has none), then
`parseInt(&(l_buf[4]))`, the `[1, 1024]` range check, and the
trailing-blank check. -/
def readHeader (l : Line) : Except HeaderErr ℕ :=
  if l.take 4 = [79, 80, 76, 50] then
    match parseInt (l.drop 4) with
    | none => Except.error HeaderErr.parseErr
    | some (v, rest) =>
      if v < 1 ∨ v > 1024 then Except.error HeaderErr.rangeErr
      else if isBlankStr rest then Except.ok v
      else Except.error HeaderErr.syntaxErr
  else Except.error HeaderErr.badTag

/-!
## Sample buffer, device trace, and the script interpreter (retro_opl.c)
-/

/-- One externally observable effect of the interpreter: a call into the
opl_driver.h audio device (`opl_write`, `opl_generate`) or a flush of the
sample buffer to the WAV output (`flushBuffer` writing `count` samples). -/
inductive TraceEv
  | oplWrite (reg val : ℕ)
  | oplGenerate (count : ℕ)
  | flush (count : ℕ)
  deriving DecidableEq

/-- The sample-buffer state of retro_opl.c: `s_fill` (samples currently
buffered) and `s_total` (samples already flushed to output). -/
structure BufState where
  s_fill : ℕ
  s_total : ℕ
  deriving DecidableEq

/-- The fatal-error (`raiseErr`) exits of retro_opl.c, by diagnostic. -/
inductive ScriptErr
  | header (e : HeaderErr)
  | badCommand     -- "Invalid command on line ...!"
  | parseErr       -- byte/integer parse failure
  | syntaxErr      -- "Invalid command syntax on line ...!"
  | clockOverflow  -- "Time counter overflow!"
  | offsetRange    -- "Sample offset out of range!"
  | numericErr     -- "Numeric problem computing offset!" (soi <= current)
  | totalOverflow  -- sample-count / file-size overflow
  | badCount       -- computeSamples called with count < 1
  deriving DecidableEq

/-- `flushBuffer` from retro_opl.c: if the buffer holds samples, write them
out (one `flush` trace event), add to `s_total` with the
`s_total <= INT32_MAX - s_fill` overflow guard, and clear the buffer. -/
def flushBuffer (b : BufState) : Except ScriptErr (BufState × List TraceEv) :=
  if 0 < b.s_fill then
    if b.s_total ≤ INT32_MAX - b.s_fill then
      Except.ok (⟨0, b.s_total + b.s_fill⟩, [TraceEv.flush b.s_fill])
    else Except.error ScriptErr.totalOverflow
  else Except.ok (b, [])

/-- The `while (count > 0)` loop of `computeSamples` in retro_opl.c: flush
the buffer when full, then generate `work = min(BUFFER_SAMPLES - s_fill,
count)` samples into the buffer.  Every iteration generates at least one
sample, so the loop performs at most `count` iterations; the `fuel`
argument (initialised to `count` by `computeSamples`) only bounds the
recursion and never runs out before `count` does. -/
def computeLoopF : ℕ → ℕ → BufState → Except ScriptErr (BufState × List TraceEv)
  | 0, _, b => Except.ok (b, [])
  | fuel + 1, count, b =>
    if count = 0 then Except.ok (b, [])
    else
      match (if BUFFER_SAMPLES ≤ b.s_fill then flushBuffer b else Except.ok (b, [])) with
      | Except.error e => Except.error e
      | Except.ok (b1, evs1) =>
        let work := min (BUFFER_SAMPLES - b1.s_fill) count
        match computeLoopF fuel (count - work) ⟨b1.s_fill + work, b1.s_total⟩ with
        | Except.error e => Except.error e
        | Except.ok (b2, evs2) => Except.ok (b2, evs1 ++ TraceEv.oplGenerate work :: evs2)

/-- `computeSamples` from retro_opl.c, including its `count < 1` parameter
check. -/
def computeSamples (count : ℕ) (b : BufState) : Except ScriptErr (BufState × List TraceEv) :=
  if count < 1 then Except.error ScriptErr.badCount
  else computeLoopF count count b

/-- `finishWAV` from retro_opl.c restricted to its sample accounting: the
final `flushBuffer`, the `data_size = s_total * 2` overflow guard
(`s_total <= INT32_MAX / 2`), and the `chunk_size = data_size + 36` guard.
The WAV byte output itself is plumbing outside this core. -/
def finishWAV (b : BufState) : Except ScriptErr (List TraceEv) :=
  match flushBuffer b with
  | Except.error e => Except.error e
  | Except.ok (b1, evs) =>
    if b1.s_total ≤ INT32_MAX / 2 then
      if 2 * b1.s_total ≤ INT32_MAX - 36 then Except.ok evs
      else Except.error ScriptErr.totalOverflow
    else Except.error ScriptErr.totalOverflow

/-- Interpreter session state of `main` in retro_opl.c: the virtual clock
`t`, the current sample position `current`, and the sample buffer. -/
structure InterpState where
  t : ℕ
  current : ℕ
  buf : BufState
  deriving DecidableEq

/-- One iteration of the `while (readInput())` body-processing loop of
`main` in retro_opl.c, applied to one line: skip comment/blank lines,
require the second character to be a space or tab, then dispatch on the
first character (`r` register write, `w` wait).  `l.getD 1 0` reads
`l_buf[1]` of the nul-padded buffer. -/
def execLine (rate sr : ℕ) (st : InterpState) (l : Line) :
    Except ScriptErr (InterpState × List TraceEv) :=
  if l.headD 0 = 39 ∨ isBlankStr l then Except.ok (st, [])
  else if ¬ (l.getD 1 0 = 32 ∨ l.getD 1 0 = 9) then Except.error ScriptErr.badCommand
  else if l.headD 0 = 114 then
    match parseByte (l.drop 1) with
    | none => Except.error ScriptErr.parseErr
    | some (reg, r1) =>
      match parseByte r1 with
      | none => Except.error ScriptErr.parseErr
      | some (val, r2) =>
        if isBlankStr r2 then Except.ok (st, [TraceEv.oplWrite reg val])
        else Except.error ScriptErr.syntaxErr
  else if l.headD 0 = 119 then
    match parseInt (l.drop 1) with
    | none => Except.error ScriptErr.parseErr
    | some (iv, r1) =>
      if ¬ isBlankStr r1 then Except.error ScriptErr.syntaxErr
      else if st.t ≤ INT32_MAX - iv then
        match rateConvertChecked (st.t + iv) sr rate with
        | none => Except.error ScriptErr.offsetRange
        | some soi =>
          if soi ≤ st.current then Except.error ScriptErr.numericErr
          else
            match computeSamples (soi - st.current) st.buf with
            | Except.error e => Except.error e
            | Except.ok (b1, evs) => Except.ok (⟨st.t + iv, soi, b1⟩, evs)
      else Except.error ScriptErr.clockOverflow
  else Except.error ScriptErr.badCommand

/-- The body-processing loop of `main` in retro_opl.c over the remaining
input lines, threading the session state and concatenating the device
trace. -/
def runBody (rate sr : ℕ) : InterpState → List Line → Except ScriptErr (InterpState × List TraceEv)
  | st, [] => Except.ok (st, [])
  | st, l :: rest =>
    match execLine rate sr st l with
    | Except.error e => Except.error e
    | Except.ok (st1, evs1) =>
      match runBody rate sr st1 rest with
      | Except.error e => Except.error e
      | Except.ok (st2, evs2) => Except.ok (st2, evs1 ++ evs2)

/-- `main` of retro_opl.c after argument handling, applied to the list of
input lines: read the header (control rate), run the body loop from the
zero state, and finish with the end-of-input flush (`finishWAV`). -/
def runScript (sr : ℕ) (lines : List Line) : Except ScriptErr (List TraceEv) :=
  match lines with
  | [] => Except.error (ScriptErr.header HeaderErr.noHeader)
  | h :: body =>
    match readHeader h with
    | Except.error e => Except.error (ScriptErr.header e)
    | Except.ok rate =>
      match runBody rate sr ⟨0, 0, ⟨0, 0⟩⟩ body with
      | Except.error e => Except.error e
      | Except.ok (st, evs) =>
        match finishWAV st.buf with
        | Except.error e => Except.error e
        | Except.ok evs2 => Except.ok (evs ++ evs2)

/-!
## Binary event decoder (vgm2opl.c)
-/

/-- The fatal-error exits of vgm2opl.c, by diagnostic. -/
inductive VgmErr
  | unsupportedOpcode (k : ℕ)  -- "Unsupported VGM opcode 0x..!"
  | missingParams              -- "VGM opcode missing parameters!"
  | overflowErr                -- "Sample count overflow!"
  | numericErr                 -- "Numeric problem!"
  deriving DecidableEq

/-- One line of the OPL2 script emitted on standard output by vgm2opl.c:
`r <addr> <val>` or `w <delta>`. -/
inductive OutCmd
  | rCmd (a v : ℕ)
  | wCmd (d : ℕ)
  deriving DecidableEq

/-- The wait-accounting state of the decode loop in vgm2opl.c: `samp`
(`samp_offs`, the accumulated VGM 44100 Hz sample offset) and `ctl`
(`ctl_offs`, the last-emitted 980 Hz control position). -/
structure VgmState where
  samp : ℕ
  ctl : ℕ
  deriving DecidableEq

/-- The common wait-handling tail of the decode loop in vgm2opl.c: a
request below 1 clears the wait flag (no-op); otherwise add it to
`samp_offs` (guard `samp_offs <= INT32_MAX - wait_req`), convert with
`floor(samp_offs * 980.0 / 44100.0)` (always ≥ 0; the `<= INT32_MAX` range
check), and emit `w (new_ctl - ctl_offs)` only when the new control
position is ahead of the current one. -/
def handleWait (req : ℕ) (st : VgmState) : Except VgmErr (VgmState × List OutCmd) :=
  if req < 1 then Except.ok (st, [])
  else if st.samp ≤ INT32_MAX - req then
    let samp1 := st.samp + req
    let newCtl := rateConvert samp1 980 44100
    if newCtl ≤ INT32_MAX then
      if st.ctl < newCtl then Except.ok (⟨samp1, newCtl⟩, [OutCmd.wCmd (newCtl - st.ctl)])
      else Except.ok (⟨samp1, st.ctl⟩, [])
    else Except.error VgmErr.numericErr
  else Except.error VgmErr.overflowErr

/-- The `while (data_len > 0)` decode loop of `main` in vgm2opl.c over one
pass of the in-memory data section.  Opcode dispatch in source order:
0x66 end marker, 0x70-0x7f shorthand waits (`(*pd - 0x70) + 1`), 0x63 wait
882, 0x62 wait 735, 0x61 general wait (`pd[1] | pd[2] << 8`, needs 3 bytes),
0x5a register write (needs 3 bytes, emits `r pd[1] pd[2]`), anything else
is an unsupported opcode.  The result pairs the commands printed during
the pass with either the final wait-accounting state or the fatal error
that aborted the pass. -/
def decodePass : List ℕ → VgmState → List OutCmd × Except VgmErr VgmState
  | [], st => ([], Except.ok st)
  | b :: rest, st =>
    if b = 102 then ([], Except.ok st)
    else if 112 ≤ b ∧ b ≤ 127 then
      match handleWait (b - 112 + 1) st with
      | Except.error e => ([], Except.error e)
      | Except.ok (st1, out1) =>
        let r := decodePass rest st1
        (out1 ++ r.1, r.2)
    else if b = 99 then
      match handleWait 882 st with
      | Except.error e => ([], Except.error e)
      | Except.ok (st1, out1) =>
        let r := decodePass rest st1
        (out1 ++ r.1, r.2)
    else if b = 98 then
      match handleWait 735 st with
      | Except.error e => ([], Except.error e)
      | Except.ok (st1, out1) =>
        let r := decodePass rest st1
        (out1 ++ r.1, r.2)
    else if b = 97 then
      match rest with
      | p1 :: p2 :: rest2 =>
        match handleWait (p1 + p2 * 256) st with
        | Except.error e => ([], Except.error e)
        | Except.ok (st1, out1) =>
          let r := decodePass rest2 st1
          (out1 ++ r.1, r.2)
      | _ => ([], Except.error VgmErr.missingParams)
    else if b = 90 then
      match rest with
      | p1 :: p2 :: rest2 =>
        let r := decodePass rest2 st
        (OutCmd.rCmd p1 p2 :: r.1, r.2)
      | _ => ([], Except.error VgmErr.missingParams)
    else ([], Except.error (VgmErr.unsupportedOpcode b))

/-- The `for(i = 0; i < rep_count; i++)` replay loop of `main` in
vgm2opl.c.  Argument validation restricts `rep_count` to 1 or 2: pass one
covers the whole data section from the zero state; when `rep_count` is 2, a
second pass starts `loop_offs` bytes in (`pd += loop_offs`) and continues
from the wait-accounting state the first pass reached. -/
def runVgm (data : List ℕ) (loopOffs repCount : ℕ) : List OutCmd × Except VgmErr VgmState :=
  match decodePass data ⟨0, 0⟩ with
  | (out1, Except.error e) => (out1, Except.error e)
  | (out1, Except.ok st1) =>
    if repCount = 2 then
      let r := decodePass (data.drop loopOffs) st1
      (out1 ++ r.1, r.2)
    else (out1, Except.ok st1)

/-- The four fixed-offset dwords of the VGM header that `main` in
vgm2opl.c reads with `readHead` (after the 0x00 magic check): version
(0x08), relative file length (0x04), relative loop offset (0x1c), relative
data offset (0x34). -/
structure VgmHeader where
  ver : ℕ
  lenField : ℕ
  loopField : ℕ
  dataField : ℕ
  deriving DecidableEq

/-- Header resolution of `main` in vgm2opl.c, lines 274-325: compute
`file_len = hdr(0x04) + 4`, `loop_offs = hdr(0x1c) + 0x1c` (≤ 0x1c means
no loop), `data_offs` (0x40, or `hdr(0x34) + 0x34` for version ≥ 0x150
unless that is ≤ 52), fall back `loop_offs = data_offs` when zero, reject a
loop offset outside `[data_offs, file_len)`, convert it to be relative to
the data section, require `file_len > data_offs`, and cap the data length
at 16 MiB.  All header arithmetic is `uint32_t`, hence the `% U32`.
Returns `(data_offs, data_len, loop_offs_relative)`, or `none` for the
`raiseErr` exits. -/
def resolveHeader (h : VgmHeader) : Option (ℕ × ℕ × ℕ) :=
  let file_len := (h.lenField + 4) % U32
  let loop0 := (h.loopField + 28) % U32
  let loop1 := if loop0 ≤ 28 then 0 else loop0
  let data_offs :=
    if 336 ≤ h.ver then
      let d0 := (h.dataField + 52) % U32
      if d0 ≤ 52 then 64 else d0
    else 64
  let loop2 := if loop1 = 0 then data_offs else loop1
  if loop2 < data_offs ∨ file_len ≤ loop2 then none
  else if file_len ≤ data_offs then none
  else
    let data_len := file_len - data_offs
    if 16777216 < data_len then none
    else some (data_offs, data_len, loop2 - data_offs)

/-- Wait amount carried by one emitted script command (0 for `r`). -/
def waitAmount : OutCmd → ℕ
  | OutCmd.wCmd d => d
  | OutCmd.rCmd _ _ => 0

/-- Sum of all `w` deltas in a list of emitted script commands. -/
def waitSum (out : List OutCmd) : ℕ := (out.map waitAmount).sum

/-- Register-write calls in a device trace, in order. -/
def writesOf (tr : List TraceEv) : List (ℕ × ℕ) :=
  tr.filterMap fun e =>
    match e with
    | TraceEv.oplWrite a v => some (a, v)
    | _ => none

/-- Total number of samples requested from `opl_generate` in a trace. -/
def genTotal (tr : List TraceEv) : ℕ :=
  (tr.map fun e =>
    match e with
    | TraceEv.oplGenerate n => n
    | _ => 0).sum

/-- Total number of samples flushed to the WAV output in a trace. -/
def flushTotal (tr : List TraceEv) : ℕ :=
  (tr.map fun e =>
    match e with
    | TraceEv.flush n => n
    | _ => 0).sum

/-- The three input lines of Scenario A: "OPL2 60", "r 20 01", "w 120". -/
def c2lines : List Line :=
  [[79, 80, 76, 50, 32, 54, 48],
   [114, 32, 50, 48, 32, 48, 49],
   [119, 32, 49, 50, 48]]

/-- Invariant connecting a starting and an ending wait-accounting state of
the vgm2opl.c decode loop with the commands emitted in between: the control
position is monotone, the sample offset is monotone, the emitted `w` deltas
sum to the control-position advance, and "ctl is the conversion of samp"
is preserved. -/
def DPinv (st st2 : VgmState) (out : List OutCmd) : Prop :=
  st.ctl ≤ st2.ctl ∧ st.samp ≤ st2.samp ∧ waitSum out + st.ctl = st2.ctl ∧
  (st.ctl = rateConvert st.samp 980 44100 → st2.ctl = rateConvert st2.samp 980 44100)

/-!
## Helper lemmas
-/

/-- Floor rate conversion is monotone in the elapsed count. -/
theorem rateConvert_mono (tgt src : ℕ) {t1 t2 : ℕ} (h : t1 ≤ t2) :
    rateConvert t1 tgt src ≤ rateConvert t2 tgt src :=
  Nat.div_le_div_right (mul_le_mul_right' h tgt)

/-!
## Claims
-/

/-- C1: for every control rate `r ∈ [1,1024]` and output rate
`s ∈ {44100,48000}`, the shared rate conversion `floor(T·s/r)` applied to
ticks `T = 0..r` passes the finiteness/32-bit checks, is non-decreasing
from each tick to the next, and lands exactly on `s` at `T = r`. -/
theorem c1_rate_conversion (r s T : ℕ) (hr1 : 1 ≤ r) (hr2 : r ≤ 1024)
    (hs : s = 44100 ∨ s = 48000) (hT : T ≤ r) :
    rateConvertChecked T s r = some (rateConvert T s r) ∧
    rateConvert T s r ≤ rateConvert (T + 1) s r ∧
    rateConvert r s r = s := by
  have hr0 : 0 < r := hr1
  have hlast : rateConvert r s r = s := Nat.mul_div_cancel_left s hr0
  have hle : rateConvert T s r ≤ s := le_trans (rateConvert_mono s r hT) (le_of_eq hlast)
  refine ⟨?_, rateConvert_mono s r (Nat.le_succ T), hlast⟩
  have hsle : s ≤ 48000 := by rcases hs with h | h <;> omega
  have hmax : rateConvert T s r ≤ INT32_MAX := by unfold INT32_MAX; omega
  simp [rateConvertChecked, hmax]

/-- Witness for C1 at control rate 60, output rate 44100, tick 59. -/
theorem c1_rate_conversion_witness :
    (1 ≤ 60 ∧ 60 ≤ 1024 ∧ 59 ≤ 60) ∧
    (rateConvertChecked 59 44100 60 = some (rateConvert 59 44100 60) ∧
     rateConvert 59 44100 60 ≤ rateConvert (59 + 1) 44100 60 ∧
     rateConvert 60 44100 60 = 44100) :=
  ⟨by decide, c1_rate_conversion 60 44100 59 (by decide) (by decide) (Or.inl rfl) (by decide)⟩

/-- C10: the header check only compares the first four bytes with "OPL2"
and then parses the control rate from byte offset 4 (skipping optional
blanks); no separating whitespace is required after the tag. -/
theorem c10_header_tag_only (l : Line) (v : ℕ) (rest : Line)
    (htag : l.take 4 = [79, 80, 76, 50])
    (hparse : parseInt (l.drop 4) = some (v, rest))
    (hlo : 1 ≤ v) (hhi : v ≤ 1024) (hblank : isBlankStr rest = true) :
    readHeader l = Except.ok v := by
  unfold readHeader
  rw [if_pos htag, hparse]
  have hnr : ¬ (v < 1 ∨ v > 1024) := by omega
  dsimp only
  rw [if_neg hnr, if_pos hblank]

/-- Witness for C10: the header line "OPL260" is accepted with control
rate 60. -/
theorem c10_header_tag_only_witness :
    readHeader [79, 80, 76, 50, 54, 48] = Except.ok 60 :=
  c10_header_tag_only [79, 80, 76, 50, 54, 48] 60 [] (by decide) (by decide)
    (by decide) (by decide) (by decide)

/-- C7: a header line whose decimal control rate lies outside `[1, 1024]`
is rejected with the range error, and the whole run fails the same way no
matter what lines follow the header — no body line is ever examined. -/
theorem c7_range_rejected_before_body (sr v : ℕ) (l rest : Line) (body : List Line)
    (htag : l.take 4 = [79, 80, 76, 50])
    (hparse : parseInt (l.drop 4) = some (v, rest))
    (hrange : v < 1 ∨ v > 1024) :
    readHeader l = Except.error HeaderErr.rangeErr ∧
    runScript sr (l :: body) = Except.error (ScriptErr.header HeaderErr.rangeErr) := by
  have hh : readHeader l = Except.error HeaderErr.rangeErr := by
    unfold readHeader
    rw [if_pos htag, hparse]
    dsimp only
    rw [if_pos hrange]
  exact ⟨hh, by simp only [runScript, hh]⟩

/-- Witness for C7: the header "OPL2 2000" is rejected with the range
error before any further line is read. -/
theorem c7_range_rejected_before_body_witness :
    readHeader [79, 80, 76, 50, 32, 50, 48, 48, 48] = Except.error HeaderErr.rangeErr ∧
    runScript 44100 [[79, 80, 76, 50, 32, 50, 48, 48, 48]] =
      Except.error (ScriptErr.header HeaderErr.rangeErr) :=
  c7_range_rejected_before_body 44100 2000 [79, 80, 76, 50, 32, 50, 48, 48, 48] [] []
    (by decide) (by decide) (by decide)

/-- C8: a multi-operand opcode (0x61 general wait or 0x5A register write)
reached with fewer than 3 bytes left in the data section fails with the
missing-parameters error, emitting nothing, instead of reading operand
bytes past the end of the loaded data. -/
theorem c8_missing_params (b : ℕ) (rest : List ℕ) (st : VgmState)
    (hop : b = 97 ∨ b = 90) (hlen : (b :: rest).length < 3) :
    decodePass (b :: rest) st = ([], Except.error VgmErr.missingParams) := by
  match rest, hlen with
  | [], _ => rcases hop with h | h <;> subst h <;> rfl
  | [x], _ => rcases hop with h | h <;> subst h <;> rfl
  | x :: y :: t, hl => simp only [List.length] at hl; omega

/-- Witness for C8: opcode 0x61 as the final byte of the data section. -/
theorem c8_missing_params_witness :
    decodePass [97] ⟨0, 0⟩ = ([], Except.error VgmErr.missingParams) :=
  c8_missing_params 97 [] ⟨0, 0⟩ (Or.inl rfl) (by decide)

/-- C2: interpreting "OPL2 60" / "r 20 01" / "w 120" at output rate 44100
performs exactly one device register write (0x20, 0x01), as the first
effect, then generates exactly floor(120·44100/60) = 88200 audio units
through the sample buffer, and finishes with the end-of-input flush of the
2184 samples still buffered (all 88200 generated samples get flushed). -/
theorem c2_scenario_a :
    ∃ tr, runScript 44100 c2lines = Except.ok tr ∧
      writesOf tr = [(32, 1)] ∧
      tr.head? = some (TraceEv.oplWrite 32 1) ∧
      genTotal tr = 88200 ∧
      flushTotal tr = 88200 ∧
      tr.getLast? = some (TraceEv.flush 2184) :=
  ⟨(runScript 44100 c2lines).toOption.getD [], by decide⟩

/-- part of C3: counterexample — the script "OPL2 60" / "w 0" is rejected
with the fatal numeric (strict-monotonicity) error; a `w 0` body line is
not accepted as the claim states. -/
theorem c3_counterexample :
    runScript 44100 [[79, 80, 76, 50, 32, 54, 48], [119, 32, 48]] =
      Except.error ScriptErr.numericErr := by decide

/-- part of C4: counterexample — a pass whose next opcode is 0x7A decodes
it as a shorthand wait of 11 source samples and succeeds; it does not
abort with UnsupportedOpcode(0x7A) as the claim states. -/
theorem c4_counterexample :
    decodePass [122] ⟨0, 0⟩ = ([], Except.ok ⟨11, 0⟩) ∧
    (decodePass [122] ⟨0, 0⟩).2 ≠ Except.error (VgmErr.unsupportedOpcode 122) := by
  decide

/-- C5: whenever header resolution succeeds, the absolute loop offset
`d + lr` satisfies data-start ≤ `d + lr` < data-end; a stored loop-offset
field of 0 falls back to the data-section start, and for version ≥ 0x150 a
data-offset field whose absolute value is ≤ 52 falls back to the legacy
fixed offset 0x40; a loop offset outside the data section is rejected
(resolution fails) before any event decoding. -/
theorem c5_loop_offset_invariant (h : VgmHeader) (d len lr : ℕ)
    (hres : resolveHeader h = some (d, len, lr)) :
    d ≤ d + lr ∧ d + lr < d + len ∧
    (h.loopField = 0 → lr = 0) ∧
    (336 ≤ h.ver → (h.dataField + 52) % U32 ≤ 52 → d = 64) := by
  simp only [resolveHeader, U32] at hres ⊢
  split_ifs at hres <;>
    first
      | (simp only [Option.some.injEq, Prod.mk.injEq] at hres; omega)
      | simp at hres

/-- Witness for C5: version 0x151, length field 0x100, loop field 0, data
field 0 (absolute data offset 52 ≤ 52, so the legacy 0x40 applies). -/
theorem c5_loop_offset_invariant_witness :
    resolveHeader ⟨337, 256, 0, 0⟩ = some (64, 196, 0) ∧
    (64 ≤ 64 + 0 ∧ 64 + 0 < 64 + 196 ∧
     ((⟨337, 256, 0, 0⟩ : VgmHeader).loopField = 0 → 0 = 0) ∧
     (336 ≤ (⟨337, 256, 0, 0⟩ : VgmHeader).ver →
      ((⟨337, 256, 0, 0⟩ : VgmHeader).dataField + 52) % U32 ≤ 52 → 64 = 64)) :=
  ⟨by decide, c5_loop_offset_invariant ⟨337, 256, 0, 0⟩ 64 196 0 (by decide)⟩

/-- The wait-handling tail can only fail with the sample-count overflow or
the numeric-range error. -/
theorem handleWait_err {req : ℕ} {st : VgmState} {e : VgmErr}
    (h : handleWait req st = Except.error e) :
    e = VgmErr.overflowErr ∨ e = VgmErr.numericErr := by
  simp only [handleWait] at h
  split_ifs at h <;> simp_all

/-- A successful wait-handling step satisfies the decode-loop invariant. -/
theorem handleWait_ok {req : ℕ} {st st1 : VgmState} {out1 : List OutCmd}
    (h : handleWait req st = Except.ok (st1, out1)) : DPinv st st1 out1 := by
  simp only [handleWait] at h
  split_ifs at h with h1 h2 h3 h4
  · simp only [Except.ok.injEq, Prod.mk.injEq] at h
    obtain ⟨rfl, rfl⟩ := h
    exact ⟨le_refl _, le_refl _, by simp [waitSum], id⟩
  · simp only [Except.ok.injEq, Prod.mk.injEq] at h
    obtain ⟨rfl, rfl⟩ := h
    refine ⟨le_of_lt h4, Nat.le_add_right _ _, ?_, fun _ => rfl⟩
    simp only [waitSum, waitAmount, List.map_cons, List.map_nil, List.sum_cons, List.sum_nil]
    omega
  · simp only [Except.ok.injEq, Prod.mk.injEq] at h
    obtain ⟨rfl, rfl⟩ := h
    refine ⟨le_refl _, Nat.le_add_right _ _, by simp [waitSum], fun hv => ?_⟩
    have hm : rateConvert st.samp 980 44100 ≤ rateConvert (st.samp + req) 980 44100 :=
      rateConvert_mono 980 44100 (Nat.le_add_right _ _)
    dsimp only at h4 ⊢
    omega

/-- Composing one successful wait step with an invariant-respecting
continuation. -/
theorem waitStep_ok {req : ℕ} {st st1 st2 : VgmState} {out1 out2 : List OutCmd}
    (hw : handleWait req st = Except.ok (st1, out1))
    (ih : DPinv st1 st2 out2) : DPinv st st2 (out1 ++ out2) := by
  obtain ⟨a1, a2, a3, a4⟩ := handleWait_ok hw
  obtain ⟨b1, b2, b3, b4⟩ := ih
  refine ⟨le_trans a1 b1, le_trans a2 b2, ?_, fun hv => b4 (a4 hv)⟩
  simp only [waitSum, List.map_append, List.sum_append] at *
  omega

/-- The trivial decode-loop invariant. -/
theorem DPinv_refl (st : VgmState) : DPinv st st [] :=
  ⟨le_refl _, le_refl _, by simp [waitSum], id⟩

/-- Unfolding of one decode-loop iteration, independent of the shape of
the remaining bytes (the generated equations split on it). -/
theorem decodePass_cons (b : ℕ) (rest : List ℕ) (st : VgmState) :
    decodePass (b :: rest) st =
      if b = 102 then ([], Except.ok st)
      else if 112 ≤ b ∧ b ≤ 127 then
        match handleWait (b - 112 + 1) st with
        | Except.error e => ([], Except.error e)
        | Except.ok (st1, out1) =>
          let r := decodePass rest st1
          (out1 ++ r.1, r.2)
      else if b = 99 then
        match handleWait 882 st with
        | Except.error e => ([], Except.error e)
        | Except.ok (st1, out1) =>
          let r := decodePass rest st1
          (out1 ++ r.1, r.2)
      else if b = 98 then
        match handleWait 735 st with
        | Except.error e => ([], Except.error e)
        | Except.ok (st1, out1) =>
          let r := decodePass rest st1
          (out1 ++ r.1, r.2)
      else if b = 97 then
        match rest with
        | p1 :: p2 :: rest2 =>
          match handleWait (p1 + p2 * 256) st with
          | Except.error e => ([], Except.error e)
          | Except.ok (st1, out1) =>
            let r := decodePass rest2 st1
            (out1 ++ r.1, r.2)
        | _ => ([], Except.error VgmErr.missingParams)
      else if b = 90 then
        match rest with
        | p1 :: p2 :: rest2 =>
          let r := decodePass rest2 st
          (OutCmd.rCmd p1 p2 :: r.1, r.2)
        | _ => ([], Except.error VgmErr.missingParams)
      else ([], Except.error (VgmErr.unsupportedOpcode b)) := by
  rcases rest with _ | ⟨x, _ | ⟨y, t⟩⟩ <;> rfl

/-- Every successful pass of the vgm2opl.c decode loop satisfies the
wait-accounting invariant `DPinv`. -/
theorem decodePass_ok : ∀ (data : List ℕ) (st : VgmState), ∀ (out : List OutCmd) (st2 : VgmState),
    decodePass data st = (out, Except.ok st2) → DPinv st st2 out := by
  intro data st
  induction data, st using decodePass.induct with
  | case1 st =>
    intro out st2 h
    simp only [decodePass, Prod.mk.injEq, Except.ok.injEq] at h
    obtain ⟨rfl, rfl⟩ := h
    exact DPinv_refl st
  | case2 rest st =>
    intro out st2 h
    rw [decodePass_cons, if_pos rfl] at h
    simp only [Prod.mk.injEq, Except.ok.injEq] at h
    obtain ⟨rfl, rfl⟩ := h
    exact DPinv_refl st
  | case3 b rest st hne hrange e hw =>
    intro out st2 h
    rw [decodePass_cons, if_neg hne, if_pos hrange, hw] at h
    simp at h
  | case4 b rest st hne hrange st1 out1 hw ih =>
    intro out st2 h
    rw [decodePass_cons, if_neg hne, if_pos hrange, hw] at h
    dsimp only at h
    rw [Prod.mk.injEq] at h
    obtain ⟨h1, h2⟩ := h
    subst h1
    exact waitStep_ok hw (ih _ _ (by rw [← h2, Prod.mk.eta]))
  | case5 rest st e hw hc1 hc2 =>
    intro out st2 h
    rw [decodePass_cons, if_neg hc1, if_neg hc2, if_pos rfl, hw] at h
    simp at h
  | case6 rest st st1 out1 hw hc1 hc2 ih =>
    intro out st2 h
    rw [decodePass_cons, if_neg hc1, if_neg hc2, if_pos rfl, hw] at h
    dsimp only at h
    rw [Prod.mk.injEq] at h
    obtain ⟨h1, h2⟩ := h
    subst h1
    exact waitStep_ok hw (ih _ _ (by rw [← h2, Prod.mk.eta]))
  | case7 rest st e hw hc1 hc2 hc3 =>
    intro out st2 h
    rw [decodePass_cons, if_neg hc1, if_neg hc2, if_neg hc3, if_pos rfl, hw] at h
    simp at h
  | case8 rest st st1 out1 hw hc1 hc2 hc3 ih =>
    intro out st2 h
    rw [decodePass_cons, if_neg hc1, if_neg hc2, if_neg hc3, if_pos rfl, hw] at h
    dsimp only at h
    rw [Prod.mk.injEq] at h
    obtain ⟨h1, h2⟩ := h
    subst h1
    exact waitStep_ok hw (ih _ _ (by rw [← h2, Prod.mk.eta]))
  | case9 st p1 p2 rest2 e hw hc1 hc2 hc3 hc4 =>
    intro out st2 h
    rw [decodePass_cons, if_neg hc1, if_neg hc2, if_neg hc3, if_neg hc4, if_pos rfl] at h
    dsimp only at h
    rw [hw] at h
    simp at h
  | case10 st p1 p2 rest2 st1 out1 hw hc1 hc2 hc3 hc4 ih =>
    intro out st2 h
    rw [decodePass_cons, if_neg hc1, if_neg hc2, if_neg hc3, if_neg hc4, if_pos rfl] at h
    dsimp only at h
    rw [hw] at h
    dsimp only at h
    rw [Prod.mk.injEq] at h
    obtain ⟨h1, h2⟩ := h
    subst h1
    exact waitStep_ok hw (ih _ _ (by rw [← h2, Prod.mk.eta]))
  | case11 rest st hshort hc1 hc2 hc3 hc4 =>
    intro out st2 h
    rcases rest with _ | ⟨x, _ | ⟨y, t⟩⟩
    · rw [decodePass_cons, if_neg hc1, if_neg hc2, if_neg hc3, if_neg hc4, if_pos rfl] at h
      simp at h
    · rw [decodePass_cons, if_neg hc1, if_neg hc2, if_neg hc3, if_neg hc4, if_pos rfl] at h
      simp at h
    · exact (hshort x y t rfl).elim
  | case12 st p1 p2 rest2 hc1 hc2 hc3 hc4 hc5 ih =>
    intro out st2 h
    rw [decodePass_cons, if_neg hc1, if_neg hc2, if_neg hc3, if_neg hc4, if_neg hc5,
      if_pos rfl] at h
    dsimp only at h
    rw [Prod.mk.injEq] at h
    obtain ⟨h1, h2⟩ := h
    subst h1
    obtain ⟨d1, d2, d3, d4⟩ := ih _ _ (by rw [← h2, Prod.mk.eta])
    exact ⟨d1, d2, by simpa [waitSum, waitAmount] using d3, d4⟩
  | case13 rest st hshort hc1 hc2 hc3 hc4 hc5 =>
    intro out st2 h
    rcases rest with _ | ⟨x, _ | ⟨y, t⟩⟩
    · rw [decodePass_cons, if_neg hc1, if_neg hc2, if_neg hc3, if_neg hc4, if_neg hc5,
        if_pos rfl] at h
      simp at h
    · rw [decodePass_cons, if_neg hc1, if_neg hc2, if_neg hc3, if_neg hc4, if_neg hc5,
        if_pos rfl] at h
      simp at h
    · exact (hshort x y t rfl).elim
  | case14 b rest st hc1 hc2 hc3 hc4 hc5 hc6 =>
    intro out st2 h
    rw [decodePass_cons, if_neg hc1, if_neg hc2, if_neg hc3, if_neg hc4, if_neg hc5,
      if_neg hc6] at h
    simp at h

/-- Opcode 0x7A lies in the 0x70-0x7F shorthand-wait range of the decode
loop, so no pass can ever abort with UnsupportedOpcode(0x7A). -/
theorem decodePass_no_7a : ∀ (data : List ℕ) (st : VgmState),
    (decodePass data st).2 ≠ Except.error (VgmErr.unsupportedOpcode 122) := by
  intro data st
  induction data, st using decodePass.induct with
  | case1 st => simp [decodePass]
  | case2 rest st =>
    rw [decodePass_cons, if_pos rfl]
    simp
  | case3 b rest st hne hrange e hw =>
    rw [decodePass_cons, if_neg hne, if_pos hrange, hw]
    rcases handleWait_err hw with rfl | rfl <;> simp
  | case4 b rest st hne hrange st1 out1 hw ih =>
    rw [decodePass_cons, if_neg hne, if_pos hrange, hw]
    simpa using ih
  | case5 rest st e hw hc1 hc2 =>
    rw [decodePass_cons, if_neg hc1, if_neg hc2, if_pos rfl, hw]
    rcases handleWait_err hw with rfl | rfl <;> simp
  | case6 rest st st1 out1 hw hc1 hc2 ih =>
    rw [decodePass_cons, if_neg hc1, if_neg hc2, if_pos rfl, hw]
    simpa using ih
  | case7 rest st e hw hc1 hc2 hc3 =>
    rw [decodePass_cons, if_neg hc1, if_neg hc2, if_neg hc3, if_pos rfl, hw]
    rcases handleWait_err hw with rfl | rfl <;> simp
  | case8 rest st st1 out1 hw hc1 hc2 hc3 ih =>
    rw [decodePass_cons, if_neg hc1, if_neg hc2, if_neg hc3, if_pos rfl, hw]
    simpa using ih
  | case9 st p1 p2 rest2 e hw hc1 hc2 hc3 hc4 =>
    rw [decodePass_cons, if_neg hc1, if_neg hc2, if_neg hc3, if_neg hc4, if_pos rfl]
    dsimp only
    rw [hw]
    rcases handleWait_err hw with rfl | rfl <;> simp
  | case10 st p1 p2 rest2 st1 out1 hw hc1 hc2 hc3 hc4 ih =>
    rw [decodePass_cons, if_neg hc1, if_neg hc2, if_neg hc3, if_neg hc4, if_pos rfl]
    dsimp only
    rw [hw]
    simpa using ih
  | case11 rest st hshort hc1 hc2 hc3 hc4 =>
    rcases rest with _ | ⟨x, _ | ⟨y, t⟩⟩
    · rw [decodePass_cons, if_neg hc1, if_neg hc2, if_neg hc3, if_neg hc4, if_pos rfl]
      simp
    · rw [decodePass_cons, if_neg hc1, if_neg hc2, if_neg hc3, if_neg hc4, if_pos rfl]
      simp
    · exact (hshort x y t rfl).elim
  | case12 st p1 p2 rest2 hc1 hc2 hc3 hc4 hc5 ih =>
    rw [decodePass_cons, if_neg hc1, if_neg hc2, if_neg hc3, if_neg hc4, if_neg hc5,
      if_pos rfl]
    simpa using ih
  | case13 rest st hshort hc1 hc2 hc3 hc4 hc5 =>
    rcases rest with _ | ⟨x, _ | ⟨y, t⟩⟩
    · rw [decodePass_cons, if_neg hc1, if_neg hc2, if_neg hc3, if_neg hc4, if_neg hc5,
        if_pos rfl]
      simp
    · rw [decodePass_cons, if_neg hc1, if_neg hc2, if_neg hc3, if_neg hc4, if_neg hc5,
        if_pos rfl]
      simp
    · exact (hshort x y t rfl).elim
  | case14 b rest st hc1 hc2 hc3 hc4 hc5 hc6 =>
    rw [decodePass_cons, if_neg hc1, if_neg hc2, if_neg hc3, if_neg hc4, if_neg hc5,
      if_neg hc6]
    simp only [ne_eq, Except.error.injEq, VgmErr.unsupportedOpcode.injEq]
    omega

/-- C4 (amended): an opcode outside the assigned set (0x66 end marker,
0x61/0x62/0x63 waits, 0x70-0x7F shorthand waits, 0x5A register write)
aborts the pass with UnsupportedOpcode carrying that opcode value and
emits no further output for the pass; opcode 0x7A itself is an assigned
shorthand wait (11 samples), so UnsupportedOpcode(0x7A) never occurs. -/
theorem c4_unsupported_opcode (b : ℕ) (rest data : List ℕ) (st st3 : VgmState)
    (hb1 : ¬ b = 102) (hb2 : ¬ (112 ≤ b ∧ b ≤ 127)) (hb3 : ¬ b = 99) (hb4 : ¬ b = 98)
    (hb5 : ¬ b = 97) (hb6 : ¬ b = 90) :
    decodePass (b :: rest) st = ([], Except.error (VgmErr.unsupportedOpcode b)) ∧
    (decodePass data st3).2 ≠ Except.error (VgmErr.unsupportedOpcode 122) := by
  refine ⟨?_, decodePass_no_7a data st3⟩
  rw [decodePass_cons, if_neg hb1, if_neg hb2, if_neg hb3, if_neg hb4, if_neg hb5, if_neg hb6]

/-- Witness for (amended) C4: opcode 0x64 is unassigned and aborts; the
stream `[0x7A]` never yields UnsupportedOpcode(0x7A). -/
theorem c4_unsupported_opcode_witness :
    (¬ (100 : ℕ) = 102 ∧ ¬ (112 ≤ (100 : ℕ) ∧ (100 : ℕ) ≤ 127) ∧ ¬ (100 : ℕ) = 99 ∧
     ¬ (100 : ℕ) = 98 ∧ ¬ (100 : ℕ) = 97 ∧ ¬ (100 : ℕ) = 90) ∧
    (decodePass [100] ⟨0, 0⟩ = ([], Except.error (VgmErr.unsupportedOpcode 100)) ∧
     (decodePass [122] ⟨0, 0⟩).2 ≠ Except.error (VgmErr.unsupportedOpcode 122)) :=
  ⟨by decide, c4_unsupported_opcode 100 [] [122] ⟨0, 0⟩ ⟨0, 0⟩ (by decide) (by decide)
    (by decide) (by decide) (by decide) (by decide)⟩

/-- C6: with repeat count 2, the second pass starts at the loop offset and
its wait accounting continues from the state reached by the first pass; on
a successful run the emitted `w` deltas over both passes sum exactly to
the final converted control-rate position (no discontinuity at the loop
boundary). -/
theorem c6_loop_continuity (data : List ℕ) (loopOffs : ℕ) (out : List OutCmd) (st : VgmState)
    (h : runVgm data loopOffs 2 = (out, Except.ok st)) :
    (∃ out1 st1 out2,
      decodePass data ⟨0, 0⟩ = (out1, Except.ok st1) ∧
      decodePass (data.drop loopOffs) st1 = (out2, Except.ok st) ∧
      out = out1 ++ out2) ∧
    waitSum out = st.ctl ∧
    st.ctl = rateConvert st.samp 980 44100 := by
  unfold runVgm at h
  rcases hp : decodePass data ⟨0, 0⟩ with ⟨out1, res1⟩
  rw [hp] at h
  cases res1 with
  | error e => simp at h
  | ok st1 =>
    dsimp only at h
    rw [if_pos rfl] at h
    rcases hq : decodePass (data.drop loopOffs) st1 with ⟨out2, res2⟩
    rw [hq] at h
    dsimp only at h
    rw [Prod.mk.injEq] at h
    obtain ⟨rfl, rfl⟩ := h
    have hq2 : decodePass (data.drop loopOffs) st1 = (out2, Except.ok st) := hq
    obtain ⟨a1, a2, a3, a4⟩ := decodePass_ok data ⟨0, 0⟩ out1 st1 hp
    obtain ⟨b1, b2, b3, b4⟩ := decodePass_ok _ st1 out2 st hq2
    have hstart : (⟨0, 0⟩ : VgmState).ctl = rateConvert (⟨0, 0⟩ : VgmState).samp 980 44100 := by
      decide
    refine ⟨⟨out1, st1, out2, rfl, hq2, rfl⟩, ?_, b4 (a4 hstart)⟩
    simp only [waitSum, List.map_append, List.sum_append] at *
    omega

/-- Witness for C6: the one-byte stream `[0x63]` (wait 882) with loop
offset 0 and repeat count 2 emits `w 19` then `w 20`, whose sum 39 is the
final converted control position of 1764 accumulated samples. -/
theorem c6_loop_continuity_witness :
    runVgm [99] 0 2 = ([OutCmd.wCmd 19, OutCmd.wCmd 20], Except.ok ⟨1764, 39⟩) ∧
    ((∃ out1 st1 out2,
        decodePass [99] ⟨0, 0⟩ = (out1, Except.ok st1) ∧
        decodePass (([99] : List ℕ).drop 0) st1 = (out2, Except.ok ⟨1764, 39⟩) ∧
        [OutCmd.wCmd 19, OutCmd.wCmd 20] = out1 ++ out2) ∧
      waitSum [OutCmd.wCmd 19, OutCmd.wCmd 20] = (⟨1764, 39⟩ : VgmState).ctl ∧
      (⟨1764, 39⟩ : VgmState).ctl = rateConvert (⟨1764, 39⟩ : VgmState).samp 980 44100) :=
  ⟨by decide,
   c6_loop_continuity [99] 0 [OutCmd.wCmd 19, OutCmd.wCmd 20] ⟨1764, 39⟩ (by decide)⟩

/-- `flushBuffer` can only fail with the sample-count overflow error. -/
theorem flushBuffer_err {b : BufState} {e : ScriptErr}
    (h : flushBuffer b = Except.error e) : e = ScriptErr.totalOverflow := by
  simp only [flushBuffer] at h
  split_ifs at h <;> simp_all

/-- The `computeSamples` loop can only fail with the sample-count overflow
error (via `flushBuffer`). -/
theorem computeLoopF_err : ∀ (fuel count : ℕ) (b : BufState) (e : ScriptErr),
    computeLoopF fuel count b = Except.error e → e = ScriptErr.totalOverflow := by
  intro fuel
  induction fuel with
  | zero => intro count b e h; simp [computeLoopF] at h
  | succ f ih =>
    intro count b e h
    simp only [computeLoopF] at h
    split_ifs at h with hc hfull
    · split at h
      · rename_i e1 heq
        rw [Except.error.injEq] at h
        subst h
        exact flushBuffer_err heq
      · rename_i b1 evs1 heq
        split at h
        · rename_i e2 heq2
          rw [Except.error.injEq] at h
          subst h
          exact ih _ _ _ heq2
        · simp at h
    · dsimp only at h
      split at h
      · rename_i e2 heq2
        rw [Except.error.injEq] at h
        subst h
        exact ih _ _ _ heq2
      · simp at h

/-- `computeSamples` can only fail with the sample-count overflow error or
its own `count < 1` parameter check. -/
theorem computeSamples_err {count : ℕ} {b : BufState} {e : ScriptErr}
    (h : computeSamples count b = Except.error e) :
    e = ScriptErr.totalOverflow ∨ e = ScriptErr.badCount := by
  simp only [computeSamples] at h
  split_ifs at h with hc
  · rw [Except.error.injEq] at h
    exact Or.inr h.symm
  · exact Or.inl (computeLoopF_err _ _ _ _ h)

/-- Reduction of `execLine` on a well-formed `w` command line: parse the
tick count, then run the overflow guard, the checked rate conversion, the
strict-monotonicity check, and the sample generation. -/
theorem execLine_w (rate sr t cur N : ℕ) (buf : BufState) (l rest : Line)
    (hl0 : l.headD 0 = 119) (hl1 : l.getD 1 0 = 32 ∨ l.getD 1 0 = 9)
    (hparse : parseInt (l.drop 1) = some (N, rest))
    (hblank : isBlankStr rest = true) :
    execLine rate sr ⟨t, cur, buf⟩ l =
      (if t ≤ INT32_MAX - N then
        match rateConvertChecked (t + N) sr rate with
        | none => Except.error ScriptErr.offsetRange
        | some soi =>
          if soi ≤ cur then Except.error ScriptErr.numericErr
          else
            match computeSamples (soi - cur) buf with
            | Except.error e => Except.error e
            | Except.ok (b1, evs) => Except.ok (⟨t + N, soi, b1⟩, evs)
      else Except.error ScriptErr.clockOverflow) := by
  obtain ⟨tl, rfl⟩ : ∃ tl, l = 119 :: tl := by
    cases l with
    | nil => simp at hl0
    | cons a tl => exact ⟨tl, by simp_all⟩
  simp only [execLine]
  rw [if_neg (by simp [isBlankStr]), if_neg (not_not_intro hl1), if_neg (by simp),
    if_pos hl0, hparse]
  dsimp only
  rw [if_neg (by simp [hblank])]

/-- C3 (amended): a `w 0` body line is never accepted — from any reachable
interpreter state (where `current` is the conversion of the clock `t`),
the recomputed sample position equals the current one, so the line is
rejected with the fatal strict-monotonicity numeric error and no audio
units are generated for it. -/
theorem c3_w0_rejected (rate sr t : ℕ) (buf : BufState) (l rest : Line)
    (ht : t ≤ INT32_MAX) (hcur : rateConvert t sr rate ≤ INT32_MAX)
    (hl0 : l.headD 0 = 119) (hl1 : l.getD 1 0 = 32 ∨ l.getD 1 0 = 9)
    (hparse : parseInt (l.drop 1) = some (0, rest))
    (hblank : isBlankStr rest = true) :
    execLine rate sr ⟨t, rateConvert t sr rate, buf⟩ l =
      Except.error ScriptErr.numericErr := by
  rw [execLine_w rate sr t (rateConvert t sr rate) 0 buf l rest hl0 hl1 hparse hblank]
  rw [if_pos (by omega)]
  have hcc : rateConvertChecked (t + 0) sr rate = some (rateConvert t sr rate) := by
    simp only [Nat.add_zero, rateConvertChecked]
    rw [if_pos hcur]
  rw [hcc]
  dsimp only
  rw [if_pos (le_refl _)]

/-- Witness for (amended) C3: control rate 60, output rate 44100, the line
"w 0" from the initial state. -/
theorem c3_w0_rejected_witness :
    ((0 : ℕ) ≤ INT32_MAX ∧ rateConvert 0 44100 60 ≤ INT32_MAX ∧
     ([119, 32, 48] : Line).headD 0 = 119 ∧
     (([119, 32, 48] : Line).getD 1 0 = 32 ∨ ([119, 32, 48] : Line).getD 1 0 = 9) ∧
     parseInt (([119, 32, 48] : Line).drop 1) = some (0, []) ∧
     isBlankStr [] = true) ∧
    execLine 60 44100 ⟨0, rateConvert 0 44100 60, ⟨0, 0⟩⟩ [119, 32, 48] =
      Except.error ScriptErr.numericErr :=
  ⟨by decide, c3_w0_rejected 60 44100 0 ⟨0, 0⟩ [119, 32, 48] [] (by decide) (by decide)
    (by decide) (by decide) (by decide) (by decide)⟩

/-- C9: a `w N` command with `N ≥ 1`, from a reachable state (`current` is
the conversion of the clock `t`) and under the claim's preconditions (the
clock addition does not overflow; the converted value passes the range
check), advances the floored sample position by at least 43 per tick —
since both output rates exceed 43 × 1024 ≥ 43·(control rate) — so the
strict-monotonicity fatal branch of the interpreter cannot be taken. -/
theorem c9_monotonic_branch_unreachable (rate sr t N : ℕ) (buf : BufState) (l rest : Line)
    (hr1 : 1 ≤ rate) (hr2 : rate ≤ 1024) (hs : sr = 44100 ∨ sr = 48000) (hN : 1 ≤ N)
    (hov : t ≤ INT32_MAX - N)
    (hchk : rateConvert (t + N) sr rate ≤ INT32_MAX)
    (hl0 : l.headD 0 = 119) (hl1 : l.getD 1 0 = 32 ∨ l.getD 1 0 = 9)
    (hparse : parseInt (l.drop 1) = some (N, rest))
    (hblank : isBlankStr rest = true) :
    rateConvert t sr rate + 43 ≤ rateConvert (t + N) sr rate ∧
    execLine rate sr ⟨t, rateConvert t sr rate, buf⟩ l ≠
      Except.error ScriptErr.numericErr := by
  have hsr : 43 * rate ≤ sr := by rcases hs with rfl | rfl <;> omega
  have hstep : rateConvert t sr rate + 43 ≤ rateConvert (t + 1) sr rate := by
    have h1 : (t * sr + 43 * rate) / rate = t * sr / rate + 43 :=
      Nat.add_mul_div_right (t * sr) 43 hr1
    have h2 : t * sr + 43 * rate ≤ (t + 1) * sr := by
      have : (t + 1) * sr = t * sr + sr := by ring
      omega
    calc rateConvert t sr rate + 43 = (t * sr + 43 * rate) / rate := h1.symm
      _ ≤ ((t + 1) * sr) / rate := Nat.div_le_div_right h2
      _ = rateConvert (t + 1) sr rate := rfl
  have key : rateConvert t sr rate + 43 ≤ rateConvert (t + N) sr rate :=
    le_trans hstep (rateConvert_mono sr rate (by omega))
  refine ⟨key, ?_⟩
  rw [execLine_w rate sr t (rateConvert t sr rate) N buf l rest hl0 hl1 hparse hblank]
  rw [if_pos hov]
  have hcc : rateConvertChecked (t + N) sr rate = some (rateConvert (t + N) sr rate) := by
    simp only [rateConvertChecked]
    rw [if_pos hchk]
  rw [hcc]
  dsimp only
  rw [if_neg (by omega)]
  cases hcs : computeSamples (rateConvert (t + N) sr rate - rateConvert t sr rate) buf with
  | error e =>
    rcases computeSamples_err hcs with rfl | rfl <;> simp
  | ok p =>
    rcases p with ⟨b1, evs⟩
    simp

/-- Witness for C9: the line "w 1" at control rate 60, output rate 44100,
from the initial state. -/
theorem c9_monotonic_branch_unreachable_witness :
    ((1 : ℕ) ≤ 60 ∧ (60 : ℕ) ≤ 1024 ∧ (1 : ℕ) ≤ 1 ∧ (0 : ℕ) ≤ INT32_MAX - 1 ∧
     rateConvert (0 + 1) 44100 60 ≤ INT32_MAX ∧
     ([119, 32, 49] : Line).headD 0 = 119 ∧
     (([119, 32, 49] : Line).getD 1 0 = 32 ∨ ([119, 32, 49] : Line).getD 1 0 = 9) ∧
     parseInt (([119, 32, 49] : Line).drop 1) = some (1, []) ∧
     isBlankStr [] = true) ∧
    (rateConvert 0 44100 60 + 43 ≤ rateConvert (0 + 1) 44100 60 ∧
     execLine 60 44100 ⟨0, rateConvert 0 44100 60, ⟨0, 0⟩⟩ [119, 32, 49] ≠
       Except.error ScriptErr.numericErr) :=
  ⟨by decide,
   c9_monotonic_branch_unreachable 60 44100 0 1 ⟨0, 0⟩ [119, 32, 49] [] (by decide) (by decide)
     (Or.inl rfl) (by decide) (by decide) (by decide) (by decide) (by decide) (by decide)
     (by decide)⟩
